import Mathlib

/-!
Shallow embedding of `showind.py` (firelab/showind): the hobo wind-data
ingestion, storage, retrieval and statistics code.  Strings are modelled as
`List Char`; Python `float` values appearing in parsing and validation are
modelled as `ℚ`; the floating-point trigonometry of the statistics engine is
modelled over `ℝ`.  Timestamps are encoded injectively into `ℕ`.
-/

namespace ShoWind

/-- Model of Python's whitespace test used by `str.strip` / `str.split`
(restricted to the four common whitespace characters). -/
def pyIsSpace (c : Char) : Bool :=
  c = ' ' || c = '\t' || c = '\n' || c = '\r'

/-- Model of `str.upper` on a single character (ASCII). -/
def pyUpper (c : Char) : Char :=
  if 'a' ≤ c ∧ c ≤ 'z' then Char.ofNat (c.toNat - 32) else c

/-- Model of `str.upper`. -/
def upperStr (s : List Char) : List Char :=
  s.map pyUpper

/-- Model of `str.lstrip()`. -/
def lstrip (s : List Char) : List Char :=
  s.dropWhile pyIsSpace

/-- Model of `str.rstrip()`. -/
def rstrip (s : List Char) : List Char :=
  (s.reverse.dropWhile pyIsSpace).reverse

/-- Model of `str.strip()`. -/
def pyStrip (s : List Char) : List Char :=
  rstrip (lstrip s)

/-- `hasSubstr s pat` models `s.find(pat) >= 0`: `pat` occurs as a contiguous
substring of `s`. -/
def hasSubstr : List Char → List Char → Bool
  | [], pat => decide (pat = [])
  | c :: t, pat => pat.isPrefixOf (c :: t) || hasSubstr t pat

/-- Index of the first occurrence of a character, modelling `str.find` for a
single-character needle (`none` stands for Python's `-1`). -/
def findChar : List Char → Char → Option Nat
  | [], _ => none
  | c :: t, d => if c = d then some 0 else (findChar t d).map (· + 1)

/-- Index of the last occurrence of a character (used for `os.path` models). -/
def lastIdxOf (s : List Char) (c : Char) : Option Nat :=
  (findChar s.reverse c).map (fun i => s.length - 1 - i)

/-- Accumulator-based worker for whitespace splitting. -/
def wordsAux : List Char → List Char → List (List Char)
  | [], acc => if acc = [] then [] else [acc.reverse]
  | c :: t, acc =>
    if pyIsSpace c then
      if acc = [] then wordsAux t [] else acc.reverse :: wordsAux t []
    else wordsAux t (c :: acc)

/-- Model of `str.split()` with no argument: split on whitespace runs,
producing no empty tokens. -/
def pySplitWS (s : List Char) : List (List Char) :=
  wordsAux s []

/-- Worker for comma splitting. -/
def splitCommaAux : List Char → List Char → List (List Char)
  | [], acc => [acc.reverse]
  | c :: t, acc =>
    if c = ',' then acc.reverse :: splitCommaAux t [] else splitCommaAux t (c :: acc)

/-- Model of `str.split(',')`: split on every comma, keeping empty fields. -/
def splitComma (s : List Char) : List (List Char) :=
  splitCommaAux s []

/-- Decimal digit test. -/
def isDigit (c : Char) : Bool :=
  '0' ≤ c && c ≤ '9'

/-- Numeric value of a digit character. -/
def digVal (c : Char) : Nat :=
  c.toNat - 48

/-- Value of a digit string read in base 10. -/
def natOfDigits (ds : List Char) : Nat :=
  ds.foldl (fun a c => a * 10 + digVal c) 0

/-- Model of Python's `float()` builtin restricted to plain decimal numerals
(optional sign, integer part, optional fractional part, surrounding
whitespace); exponents, `inf` and `nan` are outside the inputs this program
feeds it.  `none` models a raised `ValueError`. -/
def pyFloat (s : List Char) : Option ℚ :=
  let s1 := pyStrip s
  let signed : ℤ × List Char :=
    match s1 with
    | '-' :: t => (-1, t)
    | '+' :: t => (1, t)
    | _ => (1, s1)
  let ip := signed.2.takeWhile isDigit
  let rest := signed.2.dropWhile isDigit
  match rest with
  | [] => if ip = [] then none else some (mkRat (signed.1 * natOfDigits ip) 1)
  | '.' :: t =>
    let fp := t.takeWhile isDigit
    let rest2 := t.dropWhile isDigit
    if rest2 = [] ∧ (ip ≠ [] ∨ fp ≠ []) then
      some (mkRat (signed.1 * (natOfDigits ip * 10 ^ fp.length + natOfDigits fp)) (10 ^ fp.length))
    else none
  | _ => none

/-- The token searched for by `_extract_xy`. -/
def pointTok : List Char := ['P', 'O', 'I', 'N', 'T']

/-- The whitespace-split payload `_extract_xy` slices out of the wkt
(showind.py line 62): the text between the first `(` and the first `)` of
the stripped, upper-cased literal, split on whitespace.  Python's `find`
returns `-1` on absence, so a missing `(` slices from index 0 and a missing
`)` slices to `len - 1`. -/
def wktPayloadToks (wkt : List Char) : List (List Char) :=
  let w := upperStr (pyStrip wkt)
  let a : Nat := match findChar w '(' with | some i => i + 1 | none => 0
  let b : Nat := match findChar w ')' with | some i => i | none => w.length - 1
  pySplitWS ((w.take b).drop a)

/-- Embedding of `_extract_xy` (showind.py lines 54-65): strip and upper-case
the wkt, require the substring `POINT`, slice between the first `(` and the
first `)`, split the payload on whitespace, require exactly two tokens and
convert both with `float`.  `none` models a raised `ValueError`. -/
def extract_xy (wkt : List Char) : Option (ℚ × ℚ) :=
  if hasSubstr (upperStr (pyStrip wkt)) pointTok then
    match wktPayloadToks wkt with
    | [t1, t2] =>
      match pyFloat t1, pyFloat t2 with
      | some x, some y => some (x, y)
      | _, _ => none
    | _ => none
  else none

/-- A run of whitespace characters. -/
def IsWS (w : List Char) : Prop := ∀ c ∈ w, pyIsSpace c = true

/-- A plain numeric token: nonempty, made of digits, a decimal point or a
sign (the shapes `float` accepts that can appear inside a point literal). -/
def IsNumTok (t : List Char) : Prop :=
  t ≠ [] ∧ ∀ c ∈ t, isDigit c = true ∨ c = '.' ∨ c = '+' ∨ c = '-'

instance (w : List Char) : Decidable (IsWS w) := by unfold IsWS; infer_instance

instance (t : List Char) : Decidable (IsNumTok t) := by unfold IsNumTok; infer_instance

/-- The two-valued quality flag stored with each observation
(`quality = 'OK' | 'SUSPECT'` in showind.py). -/
inductive Quality where
  | OK : Quality
  | SUSPECT : Quality
deriving DecidableEq, Repr

/-- Embedding of the quality classification of `import_hobo`
(showind.py lines 398-407): start from `OK`, then each of the three checks
downgrades to `SUSPECT` (speed below 0; gust below 0; direction below 0 or
above 360).  Each check only logs and overwrites the flag, so the result is
`SUSPECT` exactly when some check fires. -/
def classifyQuality (spd gust dir : ℚ) : Quality :=
  let q := Quality.OK
  let q := if spd < 0 then Quality.SUSPECT else q
  let q := if gust < 0 then Quality.SUSPECT else q
  let q := if dir < 0 ∨ dir > 360 then Quality.SUSPECT else q
  q

/-- One row of the `mean_flow_obs` table (showind.py lines 353-364).  The
`sensor_qual` column is never written by the import path and is omitted.
Timestamps are the injective `ℕ` encoding produced by `parseTimestamp`. -/
structure ObsRow where
  plot : List Char
  date_time : ℕ
  wind_speed : ℚ
  wind_gust : ℚ
  wind_dir : ℚ
  quality : Quality
deriving DecidableEq, Repr

/-- The observation store: the `mean_flow_obs` table as an SQLite rowid table,
rows kept in insertion (rowid) order. -/
structure Store where
  rows : List ObsRow
deriving DecidableEq, Repr

/-- The empty store. -/
def emptyStore : Store := ⟨[]⟩

/-- `hasKey st p t` holds when some stored row already carries the composite
primary key `(plot_id, date_time)` = `(p, t)`. -/
def hasKey (st : Store) (p : List Char) (t : ℕ) : Bool :=
  st.rows.any (fun r => r.plot = p ∧ r.date_time = t)

/-- Errors surfaced by the import path: `sqlite3.IntegrityError` on a primary
key collision, `ValueError` from `strptime`, `ValueError` from `float`. -/
inductive ImportError where
  | duplicateKey : ImportError
  | invalidTimestamp : ImportError
  | invalidField : ImportError
deriving DecidableEq, Repr

/-- Embedding of `INSERT INTO mean_flow_obs ...` (showind.py lines 408-412)
against the composite primary key `(plot_id, date_time)` of `create_tables`
(lines 353-365): a row whose key is already present raises
`IntegrityError`; otherwise the row is appended to the table. -/
def insertObs (st : Store) (r : ObsRow) : Except ImportError Store :=
  if hasKey st r.plot r.date_time then .error .duplicateKey
  else .ok ⟨st.rows ++ [r]⟩

/-- Embedding of `fetch_point_data` (showind.py lines 106-116): the SELECT
keeps rows of the given plot whose `date_time` lies in the closed interval
`BETWEEN start AND end` and whose `quality` is `'OK'`.  The query has no
`ORDER BY`, but SQLite serves it through the automatic index created for
the `(plot_id, date_time)` primary key (plan: SEARCH mean_flow_obs USING
INDEX sqlite_autoindex_mean_flow_obs_1), scanning index entries in
`(plot_id, date_time)` order; since all matching rows share the requested
plot, the rows come back sorted ascending by `date_time` regardless of
insertion order, which the model renders as a stable sort of the matching
rows by timestamp. -/
def fetch_point_data (st : Store) (plot : List Char) (start end_ : ℕ) : List ObsRow :=
  List.insertionSort (fun r1 r2 => r1.date_time ≤ r2.date_time)
    (st.rows.filter (fun r =>
      r.plot = plot ∧ start ≤ r.date_time ∧ r.date_time ≤ end_ ∧ r.quality = Quality.OK))

instance : IsTotal ObsRow (fun r1 r2 => r1.date_time ≤ r2.date_time) :=
  ⟨fun r1 r2 => Nat.le_total r1.date_time r2.date_time⟩

instance : IsTrans ObsRow (fun r1 r2 => r1.date_time ≤ r2.date_time) :=
  ⟨fun _ _ _ => Nat.le_trans⟩

/-- No two rows share the composite key `(plot_id, date_time)`: the invariant
enforced by the `mean_obs_pk` primary key constraint. -/
def UniqueKeys (st : Store) : Prop :=
  st.rows.Pairwise (fun a b => ¬(a.plot = b.plot ∧ a.date_time = b.date_time))

/-- The rows appear in chronologically ascending order of `date_time`. -/
def TimeSorted (l : List ObsRow) : Prop :=
  l.Pairwise (fun a b => a.date_time ≤ b.date_time)

/-- Two-character decimal field. -/
def twoDig (a b : Char) : Nat :=
  digVal a * 10 + digVal b

/-- Embedding of `datetime.datetime.strptime(s, '%m/%d/%y %I:%M:%S %p')`
(showind.py line 394), on the fixed two-digit layout
`MM/DD/YY hh:mm:ss AM/PM`: fields must be digits in range (month 1-12,
day 1-31, hour 1-12 on the 12-hour clock, minute 0-59, second 0-61),
followed by `AM` or `PM`; `%y` maps 00-68 to 2000-2068 and 69-99 to
1969-1999.  The result is an injective `ℕ` encoding of the parsed instant;
`none` models a raised `ValueError`.  (Month-length validation of the real
`datetime` constructor is elided; it is not exercised by any claim.) -/
def parseTimestamp (s : List Char) : Option ℕ :=
  match s with
  | [m1, m2, '/', d1, d2, '/', y1, y2, ' ', h1, h2, ':', n1, n2, ':', s1, s2, ' ', p1, 'M'] =>
    if (isDigit m1 && isDigit m2 && isDigit d1 && isDigit d2 && isDigit y1 && isDigit y2 &&
        isDigit h1 && isDigit h2 && isDigit n1 && isDigit n2 && isDigit s1 && isDigit s2) then
      let mo := twoDig m1 m2
      let dy := twoDig d1 d2
      let yy := twoDig y1 y2
      let hr := twoDig h1 h2
      let mi := twoDig n1 n2
      let sc := twoDig s1 s2
      let yr := if yy ≤ 68 then 2000 + yy else 1900 + yy
      if 1 ≤ mo ∧ mo ≤ 12 ∧ 1 ≤ dy ∧ dy ≤ 31 ∧ 1 ≤ hr ∧ hr ≤ 12 ∧ mi ≤ 59 ∧ sc ≤ 61 then
        match p1 with
        | 'A' => some (((((yr * 13 + mo) * 32 + dy) * 24 + (if hr = 12 then 0 else hr)) * 60 + mi) * 60 + sc)
        | 'P' => some (((((yr * 13 + mo) * 32 + dy) * 24 + (if hr = 12 then 12 else hr + 12)) * 60 + mi) * 60 + sc)
        | _ => none
      else none
    else none
  | _ => none

/-- Embedding of the per-line loop body of `import_hobo` (showind.py lines
385-412), after the two header lines have been consumed: each line is split
on commas; a line with a field count other than 5 is logged and skipped
(`continue`); otherwise the timestamp is parsed (a `strptime` failure
propagates and aborts the call), then the three numeric fields (a `float`
failure propagates likewise), the quality flag is computed, and the row is
inserted (an `IntegrityError` propagates likewise). -/
def importLines (plot : List Char) : List (List Char) → Store → Except ImportError Store
  | [], st => .ok st
  | line :: rest, st =>
    match splitComma line with
    | [_idx, ts, s, g, d] =>
      match parseTimestamp ts with
      | none => .error .invalidTimestamp
      | some t =>
        match pyFloat s, pyFloat g, pyFloat d with
        | some sv, some gv, some dv =>
          match insertObs st ⟨plot, t, sv, gv, dv, classifyQuality sv gv dv⟩ with
          | .error e => .error e
          | .ok st2 => importLines plot rest st2
        | _, _, _ => .error .invalidField
    | _ => importLines plot rest st

/-- Model of `os.path.basename`: the part after the last `/`. -/
def basename (p : List Char) : List Char :=
  match lastIdxOf p '/' with
  | none => p
  | some j => p.drop (j + 1)

/-- Model of the base part of `os.path.splitext`: drop the extension starting
at the last `.`, except that a run of leading dots never starts an
extension. -/
def splitExtBase (name : List Char) : List Char :=
  let k := (name.takeWhile (· = '.')).length
  match lastIdxOf (name.drop k) '.' with
  | none => name
  | some j => name.take (k + j)

/-- The plot identifier `import_hobo` derives from a csv file's path
(showind.py line 381): `os.path.splitext(os.path.basename(csv))[0].upper()`. -/
def plotIdOf (csv : List Char) : List Char :=
  upperStr (splitExtBase (basename csv))

/-- Embedding of `import_hobo` restricted to one csv file (showind.py lines
379-413): the plot identifier comes from the file name alone, and the first
two lines are skipped as headers regardless of content (`header < 2`). -/
def importHoboFile (csv : List Char) (lines : List (List Char)) (st : Store) :
    Except ImportError Store :=
  importLines (plotIdOf csv) (lines.drop 2) st

/-- Model of `numpy.max` on a list: `none` models the `ValueError` raised on
a zero-size array. -/
def listMax : List ℚ → Option ℚ
  | [] => none
  | x :: t => some (t.foldl max x)

/-- Model of `numpy.mean`: the arithmetic mean.  (On an empty array numpy
produces `nan` without raising; the model's junk value `0/0 = 0` plays the
same role and is never relied on.) -/
noncomputable def numpyMean (xs : List ℝ) : ℝ :=
  xs.sum / xs.length

/-- Model of `numpy.std`: the population standard deviation (divide by `N`). -/
noncomputable def numpyStd (xs : List ℝ) : ℝ :=
  Real.sqrt ((xs.map (fun x => (x - numpyMean xs) ^ 2)).sum / xs.length)

/-- The mean resultant vector of `scipy.stats.morestats.circmean/circstd`
with period `high - low`: each sample is mapped to the angle
`(s - low) * 2π / (high - low)` and the unit vectors `exp(i·ang)` are
averaged. -/
noncomputable def meanVec (samples : List ℝ) (high low : ℝ) : ℂ :=
  let ang := samples.map fun s => (s - low) * (2 * Real.pi) / (high - low)
  Complex.ofReal ((ang.map Real.cos).sum / samples.length) +
    Complex.ofReal ((ang.map Real.sin).sum / samples.length) * Complex.I

/-- Embedding of `scipy.stats.morestats.circmean(samples, high, low)` (called
at showind.py line 194): the angle of the mean resultant vector, shifted
into `[0, 2π)` and scaled back to the `[low, high)` period. -/
noncomputable def circmean (samples : List ℝ) (high low : ℝ) : ℝ :=
  let res := Complex.arg (meanVec samples high low)
  let res2 := if res < 0 then res + 2 * Real.pi else res
  res2 * (high - low) / (2 * Real.pi) + low

/-- Embedding of `scipy.stats.morestats.circstd(samples, high, low)` (called
at showind.py line 195): `sqrt(-2 ln R)` scaled to the period, where `R` is
the mean resultant length. -/
noncomputable def circstd (samples : List ℝ) (high low : ℝ) : ℝ :=
  Real.sqrt (-2 * Real.log (Complex.abs (meanVec samples high low))) *
    (high - low) / (2 * Real.pi)

/-- Embedding of `ShoWind.statistics` (showind.py lines 181-196).  The data
rows are `mean_flow_obs` rows, whose columns 2, 3, 4 are speed, gust and
direction.  `numpy.mean`/`numpy.std` of the speeds do not raise on an empty
input, but `numpy.max` of the gusts raises `ValueError` on a zero-size
array, so the call fails (`none`) exactly on the empty observation set;
otherwise the summary `((spd_mean, spd_stddev), gust_max,
(direction_mean, direction_stddev))` is returned. -/
noncomputable def statistics (data : List ObsRow) : Option ((ℝ × ℝ) × ℝ × (ℝ × ℝ)) :=
  let spd : List ℝ := data.map fun r => (r.wind_speed : ℝ)
  let gust : List ℚ := data.map fun r => r.wind_gust
  let dir : List ℝ := data.map fun r => (r.wind_dir : ℝ)
  match listMax gust with
  | none => none
  | some gmax =>
    some ((numpyMean spd, numpyStd spd), (gmax : ℝ), (circmean dir 360 0, circstd dir 360 0))

instance : DecidableEq (Except ImportError Store) := fun a b =>
  match a, b with
  | .ok x, .ok y =>
    if h : x = y then .isTrue (by rw [h]) else .isFalse (by intro hc; cases hc; exact h rfl)
  | .error x, .error y =>
    if h : x = y then .isTrue (by rw [h]) else .isFalse (by intro hc; cases hc; exact h rfl)
  | .ok _, .error _ => .isFalse (by intro hc; cases hc)
  | .error _, .ok _ => .isFalse (by intro hc; cases hc)

/-- Number of stored rows of an import outcome (`none` on an aborted call). -/
def storeCount : Except ImportError Store → Option ℕ
  | .ok st => some st.rows.length
  | .error _ => none

/-! Concrete sample data used by several witnesses: a csv file with two
header lines, three parseable rows (one with a negative direction, one with
direction exactly 360) and one malformed 4-field row. -/

/-- Sample csv path. -/
def sampleCsv : List Char := "data/plot1.csv".data

/-- Sample csv contents. -/
def sampleLines : List (List Char) :=
  ["Plot Title: plot1",
   "#,Date Time,Speed,Gust,Dir",
   "1,06/27/10 02:00:00 PM,3.5,5.0,180.0",
   "2,06/27/10 02:10:00 PM,4.5,6.0,-10.0",
   "3,06/27/10 02:20:00 PM,2.5,3.0,360.0",
   "bad,1,2,3"].map String.data

/-- The row imported from the first data line of `sampleLines`. -/
def sampleRow1 : ObsRow :=
  ⟨"PLOT1".data, 72263196000, mkRat 7 2, 5, 180, Quality.OK⟩

/-- The row imported from the second data line of `sampleLines`. -/
def sampleRow2 : ObsRow :=
  ⟨"PLOT1".data, 72263196600, mkRat 9 2, 6, -10, Quality.SUSPECT⟩

/-- The row imported from the third data line of `sampleLines`. -/
def sampleRow3 : ObsRow :=
  ⟨"PLOT1".data, 72263197200, mkRat 5 2, 3, 360, Quality.OK⟩

/-- The store produced by importing `sampleLines`. -/
def sampleStore : Store := ⟨[sampleRow1, sampleRow2, sampleRow3]⟩

/-- Chronologically earlier sample row. -/
def rowEarly : ObsRow := ⟨['A'], 1, 1, 1, 1, Quality.OK⟩

/-- Chronologically later sample row. -/
def rowLate : ObsRow := ⟨['A'], 2, 1, 1, 1, Quality.OK⟩

/-- Sample stored row with quality `OK`. -/
def rowOk : ObsRow := ⟨['A'], 5, 1, 2, 3, Quality.OK⟩

/-- Sample stored row with quality `SUSPECT`. -/
def rowSus : ObsRow := ⟨['A'], 6, 1, 2, -1, Quality.SUSPECT⟩

/-- Sample observation with direction 350°. -/
def rowDir350 : ObsRow := ⟨['A'], 1, 1, 2, 350, Quality.OK⟩

/-- Sample observation with direction 10°. -/
def rowDir10 : ObsRow := ⟨['A'], 2, 1, 2, 10, Quality.OK⟩

/-- Every row present after a successful `importLines` call was either
already stored or was built by the import loop: its plot identifier is the
one passed in and its quality flag is `classifyQuality` of its own numeric
fields. -/
lemma importLines_rows_spec (plot : List Char) :
    ∀ (lines : List (List Char)) (st st2 : Store),
      importLines plot lines st = Except.ok st2 →
      ∀ r ∈ st2.rows, r ∈ st.rows ∨
        (r.plot = plot ∧ r.quality = classifyQuality r.wind_speed r.wind_gust r.wind_dir) := by
  intro lines
  induction lines with
  | nil =>
    intro st st2 h r hr
    simp only [importLines] at h
    cases h
    exact Or.inl hr
  | cons line rest ih =>
    intro st st2 h r hr
    simp only [importLines] at h
    split at h
    · split at h
      · cases h
      · split at h
        · split at h
          · cases h
          · rename_i st3 heq
            simp only [insertObs] at heq
            split at heq
            · cases heq
            · cases heq
              rcases ih _ _ h r hr with hmem | hnew
              · rcases List.mem_append.mp hmem with hold | hnewrow
                · exact Or.inl hold
                · rcases List.mem_singleton.mp hnewrow with rfl
                  exact Or.inr ⟨rfl, rfl⟩
              · exact Or.inr hnew
        · cases h
    · rcases ih _ _ h r hr with hmem | hnew
      · exact Or.inl hmem
      · exact Or.inr hnew

lemma pyUpper_of_space {c : Char} (h : pyIsSpace c = true) : pyUpper c = c := by
  simp only [pyIsSpace, Bool.or_eq_true, decide_eq_true_eq] at h
  rcases h with ((rfl | rfl) | rfl) | rfl <;> decide

lemma not_space_of_upper {c d : Char} (hd : pyIsSpace d = false) (h : pyUpper c = d) :
    pyIsSpace c = false := by
  cases hsp : pyIsSpace c
  · rfl
  · have hcd : c = d := by rw [← pyUpper_of_space hsp, h]
    subst hcd
    rw [hsp] at hd
    exact Bool.noConfusion hd

lemma dropWhile_append_all {p : Char → Bool} {l1 : List Char} (h : ∀ c ∈ l1, p c = true)
    (l2 : List Char) : (l1 ++ l2).dropWhile p = l2.dropWhile p := by
  induction l1 with
  | nil => rfl
  | cons c t ih =>
    rw [List.cons_append, List.dropWhile_cons, if_pos (by simp [h c (by simp)])]
    exact ih (fun x hx => h x (by simp [hx]))

lemma dropWhile_cons_neg {p : Char → Bool} {c : Char} (h : p c = false) (l : List Char) :
    (c :: l).dropWhile p = c :: l := by
  rw [List.dropWhile_cons, if_neg (by simp [h])]

lemma lstrip_ws_append {lead : List Char} (h : IsWS lead) (rest : List Char) :
    lstrip (lead ++ rest) = lstrip rest := dropWhile_append_all h rest

lemma lstrip_cons_neg {c : Char} (h : pyIsSpace c = false) (l : List Char) :
    lstrip (c :: l) = c :: l := dropWhile_cons_neg h l

lemma rstrip_append_ws {trail : List Char} (h : IsWS trail) (xs : List Char) :
    rstrip (xs ++ trail) = rstrip xs := by
  unfold rstrip
  rw [List.reverse_append, dropWhile_append_all (fun c hc => h c (List.mem_reverse.mp hc))]

lemma rstrip_snoc_neg {c : Char} (h : pyIsSpace c = false) (xs : List Char) :
    rstrip (xs ++ [c]) = xs ++ [c] := by
  unfold rstrip
  rw [List.reverse_append]
  simp only [List.reverse_cons, List.reverse_nil, List.nil_append, List.singleton_append]
  rw [dropWhile_cons_neg h]
  simp

/-- `str.strip()` of a padded literal whose core starts and ends with
non-whitespace characters is the core itself. -/
lemma pyStrip_lit {lead trail core : List Char} (hl : IsWS lead) (ht : IsWS trail)
    (c1 : Char) (rest1 : List Char) (hc1 : core = c1 :: rest1) (h1 : pyIsSpace c1 = false)
    (c2 : Char) (pre2 : List Char) (hc2 : core = pre2 ++ [c2]) (h2 : pyIsSpace c2 = false) :
    pyStrip (lead ++ core ++ trail) = core := by
  unfold pyStrip
  rw [List.append_assoc, lstrip_ws_append hl]
  rw [hc1, List.cons_append, lstrip_cons_neg h1, ← List.cons_append, ← hc1]
  rw [rstrip_append_ws ht, hc2, rstrip_snoc_neg h2, ← hc2]

lemma upperStr_of_fixed {l : List Char} (h : ∀ c ∈ l, pyUpper c = c) : upperStr l = l := by
  induction l with
  | nil => rfl
  | cons c t ih =>
    simp only [upperStr, List.map_cons] at *
    rw [h c (by simp), ih (fun x hx => h x (by simp [hx]))]

lemma upperStr_ws {w : List Char} (h : IsWS w) : upperStr w = w :=
  upperStr_of_fixed (fun c hc => pyUpper_of_space (h c hc))

lemma pyUpper_numchar {c : Char} (h : isDigit c = true ∨ c = '.' ∨ c = '+' ∨ c = '-') :
    pyUpper c = c := by
  rcases h with hd | rfl | rfl | rfl
  · unfold pyUpper
    rw [if_neg]
    rintro ⟨ha, -⟩
    simp only [isDigit, Bool.and_eq_true, decide_eq_true_eq] at hd
    exact absurd (le_trans ha hd.2) (by decide)
  · decide
  · decide
  · decide

lemma upperStr_numtok {t : List Char} (h : IsNumTok t) : upperStr t = t :=
  upperStr_of_fixed (fun c hc => pyUpper_numchar (h.2 c hc))

lemma ws_not_mem {w : List Char} (h : IsWS w) {c : Char} (hc : pyIsSpace c = false) :
    c ∉ w := fun hm => by rw [h c hm] at hc; exact Bool.noConfusion hc

lemma numtok_no_space {t : List Char} (h : IsNumTok t) : ∀ c ∈ t, pyIsSpace c = false := by
  intro c hc
  rcases h.2 c hc with hd | rfl | rfl | rfl
  · cases hsp : pyIsSpace c
    · rfl
    · exfalso
      simp only [pyIsSpace, Bool.or_eq_true, decide_eq_true_eq] at hsp
      rcases hsp with ((rfl | rfl) | rfl) | rfl <;> exact absurd hd (by decide)
  · rfl
  · rfl
  · rfl

lemma numtok_no_parens {t : List Char} (h : IsNumTok t) : '(' ∉ t ∧ ')' ∉ t := by
  constructor <;> intro hm <;> rcases h.2 _ hm with hd | he | he | he <;>
    first
    | exact absurd hd (by decide)
    | exact absurd he (by decide)

lemma findChar_append_not_mem {l1 : List Char} {c : Char} (h : c ∉ l1) (l2 : List Char) :
    findChar (l1 ++ l2) c = (findChar l2 c).map (· + l1.length) := by
  induction l1 with
  | nil =>
    cases h2 : findChar l2 c <;> simp [h2]
  | cons a t ih =>
    have hac : a ≠ c := fun he => h (by subst he; exact List.mem_cons_self a t)
    rw [List.cons_append, findChar, if_neg hac,
      ih (fun hm => h (List.mem_cons_of_mem a hm))]
    cases findChar l2 c with
    | none => simp
    | some i =>
      simp
      omega

lemma isPrefixOf_append_left (l r : List Char) : l.isPrefixOf (l ++ r) = true := by
  induction l with
  | nil => simp [List.isPrefixOf]
  | cons a t ih => simp [List.isPrefixOf, ih]

lemma hasSubstr_of_prefix {s pat : List Char} (h : pat.isPrefixOf s = true) :
    hasSubstr s pat = true := by
  cases s with
  | nil =>
    cases pat with
    | nil => rfl
    | cons a t => exact Bool.noConfusion h
  | cons a t => simp [hasSubstr, h]

lemma wordsAux_ws_append {u : List Char} (h : IsWS u) (rest : List Char) :
    wordsAux (u ++ rest) [] = wordsAux rest [] := by
  induction u with
  | nil => rfl
  | cons c t ih =>
    rw [List.cons_append, wordsAux]
    simp only [h c (by simp), if_true, if_pos rfl]
    exact ih (fun x hx => h x (by simp [hx]))

lemma wordsAux_tok_append {t : List Char} (h : ∀ c ∈ t, pyIsSpace c = false) :
    ∀ (rest acc : List Char), wordsAux (t ++ rest) acc = wordsAux rest (t.reverse ++ acc) := by
  induction t with
  | nil => intro rest acc; simp
  | cons c u ih =>
    intro rest acc
    rw [List.cons_append, wordsAux]
    simp only [h c (by simp), Bool.false_eq_true, if_false]
    rw [ih (fun x hx => h x (by simp [hx])) rest (c :: acc)]
    congr 1
    simp

lemma wordsAux_ws_all {u : List Char} (h : IsWS u) {acc : List Char} (hacc : acc ≠ []) :
    wordsAux u acc = [acc.reverse] := by
  cases u with
  | nil => simp [wordsAux, hacc]
  | cons c t =>
    rw [wordsAux]
    simp only [h c (by simp), if_true, if_neg hacc]
    have ht : wordsAux t [] = [] := by
      have := wordsAux_ws_append (u := t) (fun x hx => h x (by simp [hx])) ([] : List Char)
      simpa [wordsAux] using this
    rw [ht]

lemma wordsAux_ws_cons_append {u : List Char} (h : IsWS u) (hu : u ≠ [])
    {acc : List Char} (hacc : acc ≠ []) (rest : List Char) :
    wordsAux (u ++ rest) acc = acc.reverse :: wordsAux rest [] := by
  cases u with
  | nil => exact absurd rfl hu
  | cons c t =>
    rw [List.cons_append, wordsAux]
    simp only [h c (by simp), if_true, if_neg hacc]
    rw [wordsAux_ws_append (fun x hx => h x (by simp [hx])) rest]

/-- Whitespace splitting of a padded two-token payload yields exactly the
two tokens. -/
lemma pySplitWS_lit {w1 t1 w2 t2 w3 : List Char} (hw1 : IsWS w1) (ht1 : IsNumTok t1)
    (hw2 : IsWS w2) (hw2ne : w2 ≠ []) (ht2 : IsNumTok t2) (hw3 : IsWS w3) :
    pySplitWS (w1 ++ t1 ++ w2 ++ t2 ++ w3) = [t1, t2] := by
  unfold pySplitWS
  rw [show w1 ++ t1 ++ w2 ++ t2 ++ w3 = w1 ++ (t1 ++ (w2 ++ (t2 ++ w3))) from by
    simp [List.append_assoc]]
  rw [wordsAux_ws_append hw1, wordsAux_tok_append (numtok_no_space ht1), List.append_nil]
  rw [wordsAux_ws_cons_append hw2 hw2ne (by simpa using ht1.1)]
  rw [wordsAux_tok_append (numtok_no_space ht2), List.append_nil]
  rw [wordsAux_ws_all hw3 (by simpa using ht2.1)]
  simp

lemma upperStr_append (l1 l2 : List Char) : upperStr (l1 ++ l2) = upperStr l1 ++ upperStr l2 :=
  List.map_append _ _ _

lemma findChar_cons_self (c : Char) (l : List Char) : findChar (c :: l) c = some 0 := by
  simp [findChar]

/-- A well-formed point literal is extracted to its two numeric values:
any case-variant of the POINT keyword, arbitrary whitespace runs around the
keyword and the two tokens (at least one space between the tokens), and any
numeric tokens accepted by `float`. -/
lemma extract_xy_wellformed
    (lead ptok mid w1 t1 w2 t2 w3 trail : List Char) (x y : ℚ)
    (hlead : IsWS lead) (hptok : upperStr ptok = pointTok) (hmid : IsWS mid)
    (hw1 : IsWS w1) (ht1 : IsNumTok t1) (hxf : pyFloat t1 = some x)
    (hw2 : IsWS w2) (hw2ne : w2 ≠ []) (ht2 : IsNumTok t2) (hyf : pyFloat t2 = some y)
    (hw3 : IsWS w3) (htrail : IsWS trail) :
    extract_xy (lead ++ ptok ++ mid ++ ['('] ++ w1 ++ t1 ++ w2 ++ t2 ++ w3 ++ [')'] ++ trail)
      = some (x, y) := by
  cases ptok with
  | nil => simp [upperStr, pointTok] at hptok
  | cons p pt =>
  have hup : pyUpper p = 'P' ∧ upperStr pt = ['O', 'I', 'N', 'T'] := by
    simpa [upperStr, pointTok] using hptok
  have hpns : pyIsSpace p = false := not_space_of_upper (by decide) hup.1
  have hre : lead ++ (p :: pt) ++ mid ++ ['('] ++ w1 ++ t1 ++ w2 ++ t2 ++ w3 ++ [')'] ++ trail
      = lead ++ ((p :: pt) ++ mid ++ ['('] ++ w1 ++ t1 ++ w2 ++ t2 ++ w3 ++ [')']) ++ trail := by
    simp [List.append_assoc]
  rw [hre]
  have hstrip :
      pyStrip (lead ++ ((p :: pt) ++ mid ++ ['('] ++ w1 ++ t1 ++ w2 ++ t2 ++ w3 ++ [')'])
          ++ trail)
        = (p :: pt) ++ mid ++ ['('] ++ w1 ++ t1 ++ w2 ++ t2 ++ w3 ++ [')'] :=
    pyStrip_lit hlead htrail p
      (pt ++ mid ++ ['('] ++ w1 ++ t1 ++ w2 ++ t2 ++ w3 ++ [')'])
      (by simp [List.append_assoc]) hpns ')'
      ((p :: pt) ++ mid ++ ['('] ++ w1 ++ t1 ++ w2 ++ t2 ++ w3) rfl (by decide)
  have hupper :
      upperStr ((p :: pt) ++ mid ++ ['('] ++ w1 ++ t1 ++ w2 ++ t2 ++ w3 ++ [')'])
        = pointTok ++ mid ++ ['('] ++ w1 ++ t1 ++ w2 ++ t2 ++ w3 ++ [')'] := by
    simp only [upperStr_append, hptok, upperStr_ws hmid, upperStr_ws hw1,
      upperStr_numtok ht1, upperStr_ws hw2, upperStr_numtok ht2, upperStr_ws hw3,
      show upperStr ['('] = ['('] from by decide, show upperStr [')'] = [')'] from by decide]
  have hsub : hasSubstr
      (pointTok ++ mid ++ ['('] ++ w1 ++ t1 ++ w2 ++ t2 ++ w3 ++ [')']) pointTok = true := by
    apply hasSubstr_of_prefix
    rw [show pointTok ++ mid ++ ['('] ++ w1 ++ t1 ++ w2 ++ t2 ++ w3 ++ [')']
        = pointTok ++ (mid ++ (['('] ++ (w1 ++ (t1 ++ (w2 ++ (t2 ++ (w3 ++ [')'])))))))
      from by simp [List.append_assoc]]
    exact isPrefixOf_append_left _ _
  have hnopen : '(' ∉ pointTok ++ mid := by
    intro hm
    rcases List.mem_append.mp hm with hm | hm
    · exact absurd hm (by decide)
    · exact ws_not_mem hmid (by decide) hm
  have hfo : findChar (pointTok ++ mid ++ ['('] ++ w1 ++ t1 ++ w2 ++ t2 ++ w3 ++ [')']) '('
      = some (0 + (pointTok ++ mid).length) := by
    rw [show pointTok ++ mid ++ ['('] ++ w1 ++ t1 ++ w2 ++ t2 ++ w3 ++ [')']
        = (pointTok ++ mid) ++ ('(' :: (w1 ++ (t1 ++ (w2 ++ (t2 ++ (w3 ++ [')']))))))
      from by simp [List.append_assoc]]
    rw [findChar_append_not_mem hnopen, findChar_cons_self]
    rfl
  have hnoclose : ')' ∉ pointTok ++ mid ++ ['('] ++ w1 ++ t1 ++ w2 ++ t2 ++ w3 := by
    intro hm
    simp only [List.mem_append] at hm
    rcases hm with (((((((hm | hm) | hm) | hm) | hm) | hm) | hm) | hm)
    · exact absurd hm (by decide)
    · exact ws_not_mem hmid (by decide) hm
    · exact absurd hm (by decide)
    · exact ws_not_mem hw1 (by decide) hm
    · exact (numtok_no_parens ht1).2 hm
    · exact ws_not_mem hw2 (by decide) hm
    · exact (numtok_no_parens ht2).2 hm
    · exact ws_not_mem hw3 (by decide) hm
  have hfc : findChar (pointTok ++ mid ++ ['('] ++ w1 ++ t1 ++ w2 ++ t2 ++ w3 ++ [')']) ')'
      = some (0 + (pointTok ++ mid ++ ['('] ++ w1 ++ t1 ++ w2 ++ t2 ++ w3).length) := by
    rw [findChar_append_not_mem hnoclose, findChar_cons_self]
    rfl
  have htake : (pointTok ++ mid ++ ['('] ++ w1 ++ t1 ++ w2 ++ t2 ++ w3 ++ [')']).take
      (pointTok ++ mid ++ ['('] ++ w1 ++ t1 ++ w2 ++ t2 ++ w3).length
      = pointTok ++ mid ++ ['('] ++ w1 ++ t1 ++ w2 ++ t2 ++ w3 :=
    List.take_left _ _
  have hdrop : (pointTok ++ mid ++ ['('] ++ w1 ++ t1 ++ w2 ++ t2 ++ w3).drop
      ((pointTok ++ mid).length + 1) = w1 ++ t1 ++ w2 ++ t2 ++ w3 := by
    rw [show pointTok ++ mid ++ ['('] ++ w1 ++ t1 ++ w2 ++ t2 ++ w3
        = (pointTok ++ mid ++ ['(']) ++ (w1 ++ t1 ++ w2 ++ t2 ++ w3)
      from by simp [List.append_assoc]]
    rw [show (pointTok ++ mid).length + 1 = (pointTok ++ mid ++ ['(']).length from by
      simp; omega]
    exact List.drop_left _ _
  have htoks : wktPayloadToks
      (lead ++ ((p :: pt) ++ mid ++ ['('] ++ w1 ++ t1 ++ w2 ++ t2 ++ w3 ++ [')']) ++ trail)
      = [t1, t2] := by
    simp only [wktPayloadToks, hstrip, hupper, hfo, hfc, Nat.zero_add]
    rw [htake, hdrop]
    exact pySplitWS_lit hw1 ht1 hw2 hw2ne ht2 hw3
  simp only [extract_xy, hstrip, hupper, hsub, if_true, htoks, hxf, hyf]

/-- The mean resultant vector of the directions 350° and 10° is the positive
real `cos (π/18)`: the sine components cancel across the 0°/360° boundary. -/
lemma meanVec_350_10 :
    meanVec [(350 : ℝ), 10] 360 0 = Complex.ofReal (Real.cos (Real.pi / 18)) := by
  simp only [meanVec, List.map_cons, List.map_nil, List.sum_cons, List.sum_nil,
    List.length_cons, List.length_nil]
  have e1 : ((350 : ℝ) - 0) * (2 * Real.pi) / (360 - 0) = 2 * Real.pi - Real.pi / 18 := by ring
  have e2 : ((10 : ℝ) - 0) * (2 * Real.pi) / (360 - 0) = Real.pi / 18 := by ring
  rw [e1, e2]
  have hs : Real.sin (2 * Real.pi - Real.pi / 18) = -Real.sin (Real.pi / 18) := by
    rw [Real.sin_sub, Real.sin_two_pi, Real.cos_two_pi]; ring
  have hc : Real.cos (2 * Real.pi - Real.pi / 18) = Real.cos (Real.pi / 18) := by
    rw [Real.cos_sub, Real.sin_two_pi, Real.cos_two_pi]; ring
  rw [hs, hc]
  push_cast
  ring

lemma cos_pi_div_18_pos : 0 < Real.cos (Real.pi / 18) := by
  apply Real.cos_pos_of_mem_Ioo
  constructor
  · have := Real.pi_pos; linarith
  · have := Real.pi_pos; linarith

/-- The circular mean of 350° and 10° over the 360° period is exactly 0. -/
lemma circmean_350_10 : circmean [(350 : ℝ), 10] 360 0 = 0 := by
  simp only [circmean]
  rw [meanVec_350_10, Complex.arg_ofReal_of_nonneg cos_pi_div_18_pos.le]
  simp

/-- C2: the direction mean produced by the statistics operation is the
circular mean over a 360° period: on the two observations with directions
350° and 10° it yields 0 (mod 360), not the linear mean 180. -/
theorem statistics_direction_circular_mean :
    (statistics [rowDir350, rowDir10]).map (fun s => s.2.2.1) = some 0 := by
  simp only [statistics, rowDir350, rowDir10, List.map_cons, List.map_nil, listMax,
    Option.map_some]
  have h350 : ((350 : ℚ) : ℝ) = (350 : ℝ) := by norm_num
  have h10 : ((10 : ℚ) : ℝ) = (10 : ℝ) := by norm_num
  rw [h350, h10, circmean_350_10]
  simp

/-- C1: for every imported record with successfully parsed numeric fields,
the stored quality flag is SUSPECT iff speed < 0, gust < 0, direction < 0 or
direction > 360, and OK otherwise; in particular direction exactly 0 or
exactly 360 yields OK; and every row a successful import adds to the store
carries exactly this classification of its own fields. -/
theorem quality_suspect_iff :
    (∀ spd gust dir : ℚ,
      (classifyQuality spd gust dir = Quality.SUSPECT ↔
        spd < 0 ∨ gust < 0 ∨ dir < 0 ∨ dir > 360) ∧
      (classifyQuality spd gust dir = Quality.OK ↔
        ¬(spd < 0 ∨ gust < 0 ∨ dir < 0 ∨ dir > 360))) ∧
    (∀ spd gust : ℚ, 0 ≤ spd → 0 ≤ gust →
      classifyQuality spd gust 0 = Quality.OK ∧
      classifyQuality spd gust 360 = Quality.OK) ∧
    (∀ plot lines st st2, importLines plot lines st = Except.ok st2 →
      ∀ r ∈ st2.rows, r ∈ st.rows ∨
        r.quality = classifyQuality r.wind_speed r.wind_gust r.wind_dir) := by
  refine ⟨fun spd gust dir => ⟨?_, ?_⟩, fun spd gust h1 h2 => ?_, ?_⟩
  · simp only [classifyQuality]
    split_ifs <;> simp_all
  · simp only [classifyQuality]
    split_ifs <;> simp_all
  · have hd0 : ¬((0 : ℚ) < 0 ∨ (0 : ℚ) > 360) := by norm_num
    have hd360 : ¬((360 : ℚ) < 0 ∨ (360 : ℚ) > 360) := by norm_num
    constructor
    · simp only [classifyQuality]
      rw [if_neg hd0, if_neg (not_lt.2 h2), if_neg (not_lt.2 h1)]
    · simp only [classifyQuality]
      rw [if_neg hd360, if_neg (not_lt.2 h2), if_neg (not_lt.2 h1)]
  · intro plot lines st st2 h r hr
    exact (importLines_rows_spec plot lines st st2 h r hr).imp_right And.right

/-- Witness for C1: direction exactly 0 and exactly 360 give OK, and the
suspect row of the sample import carries the classification of its fields. -/
theorem quality_suspect_iff_witness :
    (classifyQuality 1 2 0 = Quality.OK ∧ classifyQuality 1 2 360 = Quality.OK) ∧
    (sampleRow2 ∈ emptyStore.rows ∨
      sampleRow2.quality =
        classifyQuality sampleRow2.wind_speed sampleRow2.wind_gust sampleRow2.wind_dir) :=
  ⟨quality_suspect_iff.2.1 1 2 (by decide) (by decide),
   quality_suspect_iff.2.2 (plotIdOf sampleCsv) (sampleLines.drop 2) emptyStore sampleStore
     (by decide) sampleRow2 (by decide)⟩

/-- C3: the statistics call fails (raises, returning no numeric summary) on
the empty observation set, and only there. -/
theorem statistics_empty_input_fails :
    statistics [] = none ∧ ∀ data : List ObsRow, (statistics data = none ↔ data = []) := by
  constructor
  · simp [statistics, listMax]
  · intro data
    cases data with
    | nil => simp [statistics, listMax]
    | cons r t => simp [statistics, listMax]

/-- C4: for any stored observation set (hence any insertion order),
`fetch_point_data` returns exactly the matching rows (a permutation of the
filtered store) sorted ascending by timestamp; concretely, inserting the
later observation first still yields the window in chronological order. -/
theorem fetch_point_data_sorted_any_order :
    (∀ (st : Store) (plot : List Char) (a b : ℕ),
      TimeSorted (fetch_point_data st plot a b) ∧
      List.Perm (fetch_point_data st plot a b)
        (st.rows.filter (fun r =>
          r.plot = plot ∧ a ≤ r.date_time ∧ r.date_time ≤ b ∧
            r.quality = Quality.OK))) ∧
    insertObs emptyStore rowLate = Except.ok ⟨[rowLate]⟩ ∧
    insertObs ⟨[rowLate]⟩ rowEarly = Except.ok ⟨[rowLate, rowEarly]⟩ ∧
    fetch_point_data ⟨[rowLate, rowEarly]⟩ ['A'] 0 10 = [rowEarly, rowLate] := by
  refine ⟨?_, by decide, by decide, by decide⟩
  intro st plot a b
  exact ⟨List.sorted_insertionSort _ _, List.perm_insertionSort _ _⟩

/-- C6: a data line that does not split into exactly 5 comma-separated
fields is skipped and ingestion continues with the next line; the first two
lines of every file are skipped regardless of content; and the sample file
with two headers, three valid rows and one 4-field row imports exactly three
observations without aborting. -/
theorem import_skips_malformed_lines :
    (∀ (plot line : List Char) (rest : List (List Char)) (st : Store),
      (splitComma line).length ≠ 5 →
      importLines plot (line :: rest) st = importLines plot rest st) ∧
    (∀ (csv l1 l2 : List Char) (lines : List (List Char)) (st : Store),
      importHoboFile csv (l1 :: l2 :: lines) st = importLines (plotIdOf csv) lines st) ∧
    storeCount (importHoboFile sampleCsv sampleLines emptyStore) = some 3 := by
  refine ⟨?_, ?_, by decide⟩
  · intro plot line rest st hlen
    simp only [importLines]
    split
    · rename_i idx ts s g d heq
      rw [heq] at hlen
      simp at hlen
    · rfl
  · intro csv l1 l2 lines st
    simp [importHoboFile]

/-- Witness for C6: a concrete 4-field line is skipped. -/
theorem import_skips_malformed_lines_witness :
    importLines "PLOT1".data ["bad,1,2,3".data] emptyStore =
      importLines "PLOT1".data [] emptyStore :=
  import_skips_malformed_lines.1 "PLOT1".data "bad,1,2,3".data [] emptyStore (by decide)

/-- C7: a 5-field line whose timestamp does not parse makes the whole import
call fail with the timestamp error; the remaining lines (an arbitrary
`rest`) are never processed. -/
theorem import_aborts_on_invalid_timestamp
    (plot line : List Char) (rest : List (List Char)) (st : Store)
    (idx ts s g d : List Char)
    (hsplit : splitComma line = [idx, ts, s, g, d])
    (hts : parseTimestamp ts = none) :
    importLines plot (line :: rest) st = Except.error ImportError.invalidTimestamp := by
  simp [importLines, hsplit, hts]

/-- Witness for C7: a concrete 5-field line with an unparseable timestamp
aborts the call even though a further line is pending. -/
theorem import_aborts_on_invalid_timestamp_witness :
    importLines "PLOT1".data ["1,junk,2,3,4".data, "x".data] emptyStore =
      Except.error ImportError.invalidTimestamp :=
  import_aborts_on_invalid_timestamp "PLOT1".data "1,junk,2,3,4".data ["x".data] emptyStore
    "1".data "junk".data "2".data "3".data "4".data (by decide) (by decide)

/-- C8: every row returned by `fetch_point_data` belongs to the requested
plot, lies in the closed window `[a, b]` and has quality OK; stored SUSPECT
rows never appear in the result (while remaining in the store, which the
read-only query does not modify). -/
theorem fetch_only_ok_in_window (st : Store) (plot : List Char) (a b : ℕ) :
    (∀ r ∈ fetch_point_data st plot a b,
      r.plot = plot ∧ a ≤ r.date_time ∧ r.date_time ≤ b ∧ r.quality = Quality.OK) ∧
    (∀ r ∈ st.rows, r.quality = Quality.SUSPECT → r ∉ fetch_point_data st plot a b) := by
  constructor
  · intro r hr
    simp only [fetch_point_data] at hr
    have hr2 := (List.perm_insertionSort _ _).subset hr
    simp only [List.mem_filter, decide_eq_true_eq] at hr2
    exact hr2.2
  · intro r _ hq hmem
    simp only [fetch_point_data] at hmem
    have hm2 := (List.perm_insertionSort _ _).subset hmem
    simp only [List.mem_filter, decide_eq_true_eq, hq] at hm2
    simp at hm2

/-- Witness for C8: a concrete OK row in the window satisfies the filter;
the concrete SUSPECT row is excluded. -/
theorem fetch_only_ok_in_window_witness :
    (rowOk.plot = ['A'] ∧ 0 ≤ rowOk.date_time ∧ rowOk.date_time ≤ 10 ∧
      rowOk.quality = Quality.OK) ∧
    rowSus ∉ fetch_point_data ⟨[rowOk, rowSus]⟩ ['A'] 0 10 :=
  ⟨(fetch_only_ok_in_window ⟨[rowOk, rowSus]⟩ ['A'] 0 10).1 rowOk (by decide),
   (fetch_only_ok_in_window ⟨[rowOk, rowSus]⟩ ['A'] 0 10).2 rowSus (by decide) (by decide)⟩

/-- C9: inserting a row whose (plot, timestamp) key is already stored fails
with the duplicate-key error, and a successful insert preserves key
uniqueness, so the store never holds two rows with the same composite
key. -/
theorem insert_enforces_unique_key :
    (∀ (st : Store) (r : ObsRow), hasKey st r.plot r.date_time = true →
      insertObs st r = Except.error ImportError.duplicateKey) ∧
    (∀ (st : Store) (r : ObsRow) (st2 : Store), UniqueKeys st →
      insertObs st r = Except.ok st2 → UniqueKeys st2) := by
  constructor
  · intro st r h
    simp [insertObs, h]
  · intro st r st2 hu h
    simp only [insertObs] at h
    split at h
    · cases h
    · rename_i hk
      cases h
      unfold UniqueKeys at hu ⊢
      rw [List.pairwise_append]
      refine ⟨hu, List.pairwise_singleton _ _, ?_⟩
      intro x hx y hy
      rcases List.mem_singleton.mp hy with rfl
      simp only [hasKey, List.any_eq_true, decide_eq_true_eq] at hk
      intro hc
      exact hk ⟨x, hx, hc⟩

/-- Witness for C9: a concrete duplicate insert fails, and a concrete fresh
insert keeps the keys unique. -/
theorem insert_enforces_unique_key_witness :
    insertObs ⟨[rowEarly]⟩ rowEarly = Except.error ImportError.duplicateKey ∧
    UniqueKeys ⟨[rowEarly, rowLate]⟩ :=
  ⟨insert_enforces_unique_key.1 ⟨[rowEarly]⟩ rowEarly (by decide),
   insert_enforces_unique_key.2 ⟨[rowEarly]⟩ rowLate ⟨[rowEarly, rowLate]⟩
     (by unfold UniqueKeys; decide) (by decide)⟩

/-- C10: every row a successful import of a csv file adds to the store
carries the plot identifier derived from the file's base name (extension
removed, upper-cased), independent of the file's contents (which are
universally quantified here). -/
theorem import_plot_id_from_filename
    (csv : List Char) (lines : List (List Char)) (st st2 : Store)
    (h : importHoboFile csv lines st = Except.ok st2) :
    ∀ r ∈ st2.rows, r ∈ st.rows ∨ r.plot = plotIdOf csv := by
  intro r hr
  simp only [importHoboFile] at h
  exact (importLines_rows_spec (plotIdOf csv) (lines.drop 2) st st2 h r hr).imp_right And.left

/-- Witness for C10: the first row imported from `data/plot1.csv` carries
plot identifier `PLOT1`. -/
theorem import_plot_id_from_filename_witness :
    sampleRow1 ∈ emptyStore.rows ∨ sampleRow1.plot = plotIdOf sampleCsv :=
  import_plot_id_from_filename sampleCsv sampleLines emptyStore sampleStore (by decide)
    sampleRow1 (by decide)

/-- C5: extraction succeeds with exactly the pair (x, y) on every
well-formed point literal (the POINT keyword in any case, arbitrary
leading/trailing/interior whitespace, two numeric tokens inside the
parentheses), and fails on any literal missing the POINT token or whose
parenthesized payload splits into a token count other than 2. -/
theorem extract_xy_point_literal :
    (∀ (lead ptok mid w1 t1 w2 t2 w3 trail : List Char) (x y : ℚ),
      IsWS lead → upperStr ptok = pointTok → IsWS mid →
      IsWS w1 → IsNumTok t1 → pyFloat t1 = some x →
      IsWS w2 → w2 ≠ [] → IsNumTok t2 → pyFloat t2 = some y →
      IsWS w3 → IsWS trail →
      extract_xy (lead ++ ptok ++ mid ++ ['('] ++ w1 ++ t1 ++ w2 ++ t2 ++ w3 ++ [')'] ++ trail)
        = some (x, y)) ∧
    (∀ wkt : List Char, hasSubstr (upperStr (pyStrip wkt)) pointTok = false →
      extract_xy wkt = none) ∧
    (∀ wkt : List Char, (wktPayloadToks wkt).length ≠ 2 → extract_xy wkt = none) := by
  refine ⟨extract_xy_wellformed, ?_, ?_⟩
  · intro wkt h
    simp [extract_xy, h]
  · intro wkt h
    unfold extract_xy
    split
    · split
      · rename_i t1 t2 heq
        exact absurd (by rw [heq]; rfl) h
      · rfl
    · rfl

/-- Witness for C5: a concrete lower-case padded literal extracts to
`(10, 10)`; a POLYGON literal and a three-token POINT literal fail. -/
theorem extract_xy_point_literal_witness :
    extract_xy ([' '] ++ "point".data ++ [' '] ++ ['('] ++ [' '] ++ "10.0".data ++
        [' ', ' '] ++ "10".data ++ [] ++ [')'] ++ [' ', '\t']) = some (10, 10) ∧
    extract_xy "POLYGON (10.0 10.0)".data = none ∧
    extract_xy "POINT (1 2 3)".data = none :=
  ⟨extract_xy_point_literal.1 [' '] "point".data [' '] [' '] "10.0".data [' ', ' ']
      "10".data [] [' ', '\t'] 10 10 (by decide) (by decide) (by decide) (by decide)
      (by decide) (by decide) (by decide) (by decide) (by decide) (by decide) (by decide)
      (by decide),
   extract_xy_point_literal.2.1 _ (by decide),
   extract_xy_point_literal.2.2 _ (by decide)⟩

end ShoWind
